import Mathlib

/-!
Verification of the candidate-file resolution and change-safety validation
engine of the Multi-Agent Cloud Remediator (the `create_pr` flow in
`app/agents/github_pr.py`).

Python strings are modelled as `List Char` (`PStr`); the Python string
operations used by the source (`str.replace`, `str.strip`, `str.count`,
`in`/substring test, `str.lower`, `str.upper`, slicing) are embedded below
with Python's semantics (left-to-right, non-overlapping, no rescan of
replaced text).  The repository checkout is modelled in two shapes matching
the two halves of the flow: a file tree (`Repo`) for the scan/select half
(lines 160-323 of `github_pr.py`) and an association list keyed by the
repository-relative path for the write/validate half (lines 379-477).
-/

namespace CloudRemediator

/-- A Python string, modelled as a list of its characters. -/
abbrev PStr := List Char

/-- Fuelled core of Python `str.replace`: scans left to right, replaces each
non-overlapping occurrence of `pat`, and never rescans the replacement text.
One unit of fuel is spent per scanning step; each step consumes at least one
character of the subject, so `s.length` fuel is always enough. -/
def pyReplaceAux (pat repl : PStr) : Nat → PStr → PStr
  | 0, s => s
  | _ + 1, [] => []
  | fuel + 1, c :: rest =>
    if pat ≠ [] ∧ pat.isPrefixOf (c :: rest) then
      repl ++ pyReplaceAux pat repl fuel ((c :: rest).drop pat.length)
    else
      c :: pyReplaceAux pat repl fuel rest

/-- Python `s.replace(pat, repl)` (for the non-empty patterns the source uses). -/
def pyReplace (s pat repl : PStr) : PStr :=
  pyReplaceAux pat repl s.length s

/-- Python `str.strip()`: drop leading and trailing whitespace. -/
def pyStrip (s : PStr) : PStr :=
  ((s.dropWhile Char.isWhitespace).reverse.dropWhile Char.isWhitespace).reverse

/-- Fuelled core of Python `str.count`: counts non-overlapping occurrences
left to right. -/
def pyCountAux (pat : PStr) : Nat → PStr → Nat
  | 0, _ => 0
  | _ + 1, [] => 0
  | fuel + 1, c :: rest =>
    if pat ≠ [] ∧ pat.isPrefixOf (c :: rest) then
      1 + pyCountAux pat fuel ((c :: rest).drop pat.length)
    else
      pyCountAux pat fuel rest

/-- Python `s.count(pat)` (for the non-empty patterns the source uses). -/
def pyCount (s pat : PStr) : Nat :=
  pyCountAux pat s.length s

/-- Python `str.lower()` (ASCII; all markers in the source are ASCII). -/
def pyLower (s : PStr) : PStr := s.map Char.toLower

/-- Python `str.upper()` (ASCII; Jira ids in the source are ASCII). -/
def pyUpper (s : PStr) : PStr := s.map Char.toUpper

/-- Python's substring test `sub in s`. -/
def pyContains (sub s : PStr) : Bool := decide (sub <:+: s)

/-- The `$\x7bpath.module\x7d` templating token (github_pr.py line 199). -/
def pathModuleToken : PStr := "$\x7bpath.module\x7d".toList

/-- The `$\x7bpath.root\x7d` templating token (github_pr.py line 200). -/
def pathRootToken : PStr := "$\x7bpath.root\x7d".toList

/-- Module-source normalization, github_pr.py lines 198-201: substitute both
path-templating tokens with "." and trim whitespace. -/
def normalizeSource (source : PStr) : PStr :=
  let normalized := pyReplace source pathModuleToken ".".toList
  let normalized := pyReplace normalized pathRootToken ".".toList
  pyStrip normalized

/-- Branch-name resolution, github_pr.py lines 118-125: the `branch` read
from the intent is unconditionally overwritten by
`f"{timestamp}-{jira_id.upper()}"`, where `jira_id` defaults to `"unknown"`
when absent from the intent.  `timestamp` stands for the externally produced
`datetime.now().strftime(...)` value. -/
def resolveBranch (intentBranch : Option PStr) (intentJiraId : Option PStr)
    (timestamp : PStr) : PStr :=
  let _branch := intentBranch
  let jira_id := intentJiraId.getD "unknown".toList
  timestamp ++ ('-' :: pyUpper jira_id)

/-! ## Repository tree model (scan/select half, github_pr.py lines 160-323)

A checked-out repository is a finite list of files, each with a directory
(path components relative to the repository root, `[]` meaning the root
itself), a file name and its text content, plus the list of directories that
exist on disk (`os.path.isdir`).  `os.walk` from a directory enumerates the
files whose directory extends it, in inventory order. -/

/-- A file discovered in the repository checkout. -/
structure RepoFile where
  dir : List PStr
  name : PStr
  content : PStr
deriving DecidableEq

/-- A repository checkout: its files and its existing directories. -/
structure Repo where
  files : List RepoFile
  dirs : List (List PStr)
deriving DecidableEq

/-- `os.path.isdir` on a repository-relative directory path. -/
def isDir (r : Repo) (d : List PStr) : Bool := d ∈ r.dirs

/-- All files `os.walk` yields below directory `d` (`[]` = repository root). -/
def filesUnder (r : Repo) (d : List PStr) : List RepoFile :=
  r.files.filter (fun f => d.isPrefixOf f.dir)

/-- `f.endswith(".tf") or f.endswith(".tfvars")` (github_pr.py line 164). -/
def isDefFileName (n : PStr) : Bool :=
  ".tf".toList.isSuffixOf n || ".tfvars".toList.isSuffixOf n

/-- `f == "terragrunt.hcl" or f.endswith(".hcl")` (github_pr.py line 166). -/
def isManifestFileName (n : PStr) : Bool :=
  n == "terragrunt.hcl".toList || ".hcl".toList.isSuffixOf n

/-- `terraform_files`: definition files discovered by the scan (lines 160-165). -/
def terraformFiles (r : Repo) : List RepoFile :=
  (filesUnder r []).filter (fun f => isDefFileName f.name)

/-- `terragrunt_files`: manifest files discovered by the scan (lines 160-167). -/
def terragruntFiles (r : Repo) : List RepoFile :=
  (filesUnder r []).filter (fun f => isManifestFileName f.name)

/-- `matched_files`: definition files whose raw text contains some affected
resource identifier as a literal substring (lines 214-223). -/
def matchedFiles (r : Repo) (affected_resources : List PStr) : List RepoFile :=
  (terraformFiles r).filter
    (fun f => affected_resources.any (fun res => pyContains res f.content))

/-- `resource_markers = [resource_type, f"aws_{resource_type}"]` (line 228). -/
def resourceMarkers (resource_type : PStr) : List PStr :=
  [resource_type, "aws_".toList ++ resource_type]

/-- `resource_related_files`: definition + manifest files whose lowercased
text contains a resource-type marker (lines 225-236). -/
def resourceRelatedFiles (r : Repo) (resource_type : PStr) : List RepoFile :=
  (terraformFiles r ++ terragruntFiles r).filter
    (fun f => (resourceMarkers resource_type).any
      (fun m => pyContains m (pyLower f.content)))

/-- Definition files collected by walking each discovered module source
directory (lines 238-243). -/
def moduleSourceFiles (r : Repo) (module_source_dirs : List (List PStr)) : List RepoFile :=
  module_source_dirs.flatMap
    (fun d => (filesUnder r d).filter (fun f => isDefFileName f.name))

/-- The root-level `modules` directory name. -/
def modulesDirName : PStr := "modules".toList

/-- `module_files` with the root-`modules/` fallback (lines 238-261): files
under the discovered module source directories; only when that set is empty
and a root-level `modules/` directory exists, scan `modules/<resourceType>/`
when that subdirectory exists and otherwise all of `modules/`. -/
def moduleFilesOf (r : Repo) (module_source_dirs : List (List PStr))
    (resource_type : PStr) : List RepoFile :=
  let module_files := moduleSourceFiles r module_source_dirs
  if isDir r [modulesDirName] ∧ module_files = [] then
    if isDir r [modulesDirName, resource_type] then
      module_files ++
        (filesUnder r [modulesDirName, resource_type]).filter (fun f => isDefFileName f.name)
    else
      module_files ++
        (filesUnder r [modulesDirName]).filter (fun f => isDefFileName f.name)
  else
    module_files

/-- The tier-1 directory-expansion loop (lines 279-282): append, in scan
order, every definition file whose directory is one of the matched
directories and which is not already among the candidates. -/
def addDirSiblings (candidate_files : List RepoFile) (tfs : List RepoFile)
    (matched_dirs : List (List PStr)) : List RepoFile :=
  match tfs with
  | [] => candidate_files
  | f :: rest =>
    if f.dir ∈ matched_dirs ∧ f ∉ candidate_files then
      addDirSiblings (candidate_files ++ [f]) rest matched_dirs
    else
      addDirSiblings candidate_files rest matched_dirs

/-- The tier-3 root augmentation loop (lines 289-292): append every
root-level definition file not already among the candidates. -/
def addRootLevelFiles (candidate_files : List RepoFile) (tfs : List RepoFile) : List RepoFile :=
  match tfs with
  | [] => candidate_files
  | f :: rest =>
    if f.dir = [] ∧ f ∉ candidate_files then addRootLevelFiles (candidate_files ++ [f]) rest
    else addRootLevelFiles candidate_files rest

/-- The four-tier candidate selection (lines 274-295). -/
def selectCandidateFiles (r : Repo) (affected_resources : List PStr)
    (resource_type : PStr) (module_source_dirs : List (List PStr)) : List RepoFile :=
  let matched := matchedFiles r affected_resources
  let related := resourceRelatedFiles r resource_type
  let module_files := moduleFilesOf r module_source_dirs resource_type
  if matched ≠ [] then
    addDirSiblings matched (terraformFiles r) (matched.map (fun f => f.dir))
  else if affected_resources ≠ [] ∧ related ≠ [] then
    related
  else if module_files ≠ [] then
    addRootLevelFiles module_files (terraformFiles r)
  else
    terraformFiles r

/-- The terminal error kinds of the scan/select half. -/
inductive SelectionError
  | discoveryEmpty
  | noAffectedFilesMatched
  | noCandidateFiles
deriving DecidableEq

/-- The scan/select half with its guards: the empty-inventory check
(lines 169-173), the no-affected-resources-found check (lines 263-272), the
tiered selection (lines 274-295) and the empty-candidates check
(lines 298-304). -/
def runSelection (r : Repo) (affected_resources : List PStr) (resource_type : PStr)
    (module_source_dirs : List (List PStr)) : Except SelectionError (List RepoFile) :=
  if terraformFiles r = [] ∧ terragruntFiles r = [] then
    .error .discoveryEmpty
  else if affected_resources ≠ [] ∧ matchedFiles r affected_resources = [] ∧
      resourceRelatedFiles r resource_type = [] ∧
      moduleFilesOf r module_source_dirs resource_type = [] then
    .error .noAffectedFilesMatched
  else
    let candidate_files := selectCandidateFiles r affected_resources resource_type module_source_dirs
    if candidate_files = [] then .error .noCandidateFiles else .ok candidate_files

/-- `max_files = 50` (line 306). -/
def max_files : Nat := 50

/-- `max_total_chars = 200_000` (line 307). -/
def max_total_chars : Nat := 200000

/-- `os.path.relpath(abs_path, repo_path)` in the tree model. -/
def relPathOf (f : RepoFile) : List PStr := f.dir ++ [f.name]

/-- The content-assembly loop body (lines 310-323): for each candidate (the
first `max_files` of them), compute the remaining character budget, stop
when it is exhausted, truncate the file content to the remaining budget when
it is longer, record the entry and add the recorded length to the running
total.  `total_chars` never exceeds `max_total_chars` (it starts at 0 and
each step adds at most the remaining budget), so Nat subtraction here agrees
with Python's integer subtraction and `remaining = 0` is Python's
`remaining <= 0`. -/
def assembleAux : List RepoFile → Nat → List (List PStr × PStr)
  | [], _ => []
  | f :: rest, total_chars =>
    let remaining := max_total_chars - total_chars
    if remaining = 0 then []
    else
      let content := if f.content.length > remaining then f.content.take remaining else f.content
      (relPathOf f, content) :: assembleAux rest (total_chars + content.length)

/-- `terraform_file_contents` (lines 306-323), as a list of entries in
insertion order. -/
def assembleFileContents (candidate_files : List RepoFile) : List (List PStr × PStr) :=
  assembleAux (candidate_files.take max_files) 0

/-! ## Write/validate half (github_pr.py lines 352-477)

Here the checkout is keyed by repository-relative path: an association list
from path to content.  `os.path.exists` is lookup success, writing a file
updates or appends its entry. -/

/-- The checkout as seen by the write loop. -/
abbrev CheckoutFs := List (PStr × PStr)

/-- `os.path.exists` + `open(...).read()`: first matching entry. -/
def fsLookup : CheckoutFs → PStr → Option PStr
  | [], _ => none
  | (k, v) :: rest, key => if k = key then some v else fsLookup rest key

/-- `open(full_path, "w").write(content)`: update in place or append. -/
def fsWrite : CheckoutFs → PStr → PStr → CheckoutFs
  | [], key, content => [(key, content)]
  | (k, v) :: rest, key, content =>
    if k = key then (key, content) :: rest else (k, v) :: fsWrite rest key content

/-- `rel_path in ["main.tf", "terraform.tf", "providers.tf"]` (line 387). -/
def sensitiveRootFiles : List PStr :=
  ["main.tf".toList, "terraform.tf".toList, "providers.tf".toList]

/-- The structural-loss reasons the validator can report (lines 411-428).
The human-readable message text is display-only and elided; the module-count
reason carries the computed block-count decrease. -/
inductive ValReason
  | removedModules (count : Nat)
  | removedTerraformBlock
  | removedVariables
  | removedOutputs
  | removedResources
  | sizeReduced
deriving DecidableEq

/-- The marker `module "` counted on both sides (lines 392-393). -/
def moduleQuoteMarker : PStr := "module \"".toList

/-- The marker `terraform \x7b` (lines 396-397). -/
def terraformBlockMarker : PStr := "terraform \x7b".toList

/-- The marker `variable "` (lines 399-400). -/
def variableQuoteMarker : PStr := "variable \"".toList

/-- The marker `output "` (lines 402-403). -/
def outputQuoteMarker : PStr := "output \"".toList

/-- The marker `resource "` (lines 405-406). -/
def resourceQuoteMarker : PStr := "resource \"".toList

/-- `size_ratio < 0.5` where
`size_ratio = len(content)/len(original) if len(original) > 0 else 0`
(lines 409, 427).  For a positive original length the float comparison is
expressed exactly over the integers (`a/b < 1/2` iff `2a < b`); for an empty
original the ratio is literally `0` and `0 < 0.5` holds. -/
def sizeRatioBelowHalf (original_content content : PStr) : Bool :=
  if original_content.length > 0 then
    2 * content.length < original_content.length
  else
    true

/-- The change-safety validator (lines 391-428): the list of structural-loss
reasons, in the order the source appends them. -/
def validateReplacement (original_content content : PStr) : List ValReason :=
  let original_module_count := pyCount original_content moduleQuoteMarker
  let new_module_count := pyCount content moduleQuoteMarker
  (if original_module_count > 1 ∧ new_module_count < original_module_count then
      [ValReason.removedModules (original_module_count - new_module_count)] else []) ++
  (if pyContains terraformBlockMarker original_content ∧
      ¬ pyContains terraformBlockMarker content = true then
      [ValReason.removedTerraformBlock] else []) ++
  (if pyContains variableQuoteMarker original_content ∧
      ¬ pyContains variableQuoteMarker content = true then
      [ValReason.removedVariables] else []) ++
  (if pyContains outputQuoteMarker original_content ∧
      ¬ pyContains outputQuoteMarker content = true then
      [ValReason.removedOutputs] else []) ++
  (if pyContains resourceQuoteMarker original_content ∧
      ¬ pyContains resourceQuoteMarker content = true then
      [ValReason.removedResources] else []) ++
  (if sizeRatioBelowHalf original_content content then [ValReason.sizeReduced] else [])

/-- Outcome of the write loop: the checkout after the writes that actually
happened, the paths written (`changed_files`), and the structural-loss
rejection, if any, that aborted the loop. -/
structure ApplyResult where
  fs : CheckoutFs
  changed_files : List PStr
  error : Option (PStr × List ValReason)
deriving DecidableEq

/-- The write loop (lines 379-446): files are processed in payload order;
a replacement for an existing sensitive root file is validated and, on a
non-empty reason list, the whole run aborts (the exception at line 434) with
the checkout as already mutated by the earlier iterations; every other file
is written unconditionally. -/
def applyChangesAux : List (PStr × PStr) → CheckoutFs → ApplyResult
  | [], fs => ⟨fs, [], none⟩
  | (rel_path, content) :: rest, fs =>
    match fsLookup fs rel_path with
    | some original_content =>
      if rel_path ∈ sensitiveRootFiles then
        let errors := validateReplacement original_content content
        if errors = [] then
          let r := applyChangesAux rest (fsWrite fs rel_path content)
          ⟨r.fs, rel_path :: r.changed_files, r.error⟩
        else
          ⟨fs, [], some (rel_path, errors)⟩
      else
        let r := applyChangesAux rest (fsWrite fs rel_path content)
        ⟨r.fs, rel_path :: r.changed_files, r.error⟩
    | none =>
      let r := applyChangesAux rest (fsWrite fs rel_path content)
      ⟨r.fs, rel_path :: r.changed_files, r.error⟩

/-- The terminal error kinds of the payload/write/diff half. -/
inductive RunError
  | malformedPayload
  | emptyFilesObject
  | structuralLoss (rel_path : PStr) (reasons : List ValReason)
  | emptyDiff
deriving DecidableEq

/-- `git diff --name-only` against the pre-write checkout: names whose
content now differs (writes never delete files). -/
def gitDiffNames (fs0 fs1 : CheckoutFs) : List PStr :=
  (fs1.map Prod.fst).filter (fun k => fsLookup fs0 k ≠ fsLookup fs1 k)

/-- The payload-to-diff pipeline (lines 362-477): the `files` object must be
present (line 363, else `malformedPayload`) and non-empty (lines 369-376,
else `emptyFilesObject`); then the write loop runs, a structural-loss
rejection is terminal, and an empty `git diff` afterwards is the
`EmptyDiff` terminal condition (lines 471-477). -/
def processProposedChange (fs0 : CheckoutFs) (payload : Option (List (PStr × PStr))) :
    Except RunError (CheckoutFs × List PStr) :=
  match payload with
  | none => .error .malformedPayload
  | some files_obj =>
    if files_obj = [] then .error .emptyFilesObject
    else
      let r := applyChangesAux files_obj fs0
      match r.error with
      | some (p, reasons) => .error (.structuralLoss p reasons)
      | none =>
        if gitDiffNames fs0 r.fs = [] then .error .emptyDiff
        else .ok (r.fs, r.changed_files)

/-- `total_chars` accumulated over a list of files read without truncation. -/
def sumContentLens (files : List RepoFile) : Nat :=
  (files.map (fun f => f.content.length)).sum

/-! ## Concrete inputs used by counterexamples and witnesses -/

/-- The checkout used by the C1 counterexample: `main.tf` holds 4 characters. -/
def c1Checkout : CheckoutFs := [("main.tf".toList, "abcd".toList)]

/-- The batch used by the C1 counterexample: a harmless new file first, then
a truncated `main.tf` replacement that fails the size-ratio check. -/
def c1Payload : List (PStr × PStr) :=
  [("a.tf".toList, "x".toList), ("main.tf".toList, "a".toList)]

/-- C3 inputs: a definition file inside a discovered module source
directory `mymod/`. -/
def c3FileA : RepoFile := ⟨["mymod".toList], "a.tf".toList, "x".toList⟩

/-- C3 inputs: a definition file inside the root-level `modules/s3/`
directory. -/
def c3FileB : RepoFile := ⟨["modules".toList, "s3".toList], "b.tf".toList, "y".toList⟩

/-- C3 inputs: a repository holding both files, where `modules/s3/` exists
as a directory. -/
def c3Repo : Repo :=
  ⟨[c3FileA, c3FileB],
   [[], ["mymod".toList], ["modules".toList], ["modules".toList, "s3".toList]]⟩

/-- C4 inputs: a repository whose only discovered file is a manifest
(`x.hcl`) with content mentioning no resource marker. -/
def c4Repo : Repo := ⟨[⟨[], "x.hcl".toList, "foo".toList⟩], [[]]⟩

/-- C5 inputs: the definition file that contains the affected resource
identifier. -/
def c5FileMain : RepoFile := ⟨["app".toList], "main.tf".toList, "bucket-prod".toList⟩

/-- C5 inputs: a directory sibling of the matched file, not itself
matching. -/
def c5FileSib : RepoFile := ⟨["app".toList], "vars.tf".toList, "zzz".toList⟩

/-- C5 inputs: a definition file in an unrelated directory. -/
def c5FileOther : RepoFile := ⟨["net".toList], "net.tf".toList, "qqq".toList⟩

/-- C5 inputs: the repository holding the three files. -/
def c5Repo : Repo :=
  ⟨[c5FileMain, c5FileSib, c5FileOther], [[], ["app".toList], ["net".toList]]⟩

/-- C5 inputs: the affected-resource identifiers. -/
def c5Affected : List PStr := ["bucket-prod".toList]

/-- C6 inputs: a root-level definition file one character over the whole
combined budget. -/
def c6BigFile : RepoFile := ⟨[], "big.tf".toList, List.replicate 200001 'a'⟩

/-! ## Supporting lemmas -/

theorem pyReplaceAux_eq_self (pat repl : PStr) (fuel : Nat) (s : PStr)
    (h : ¬ pat <:+: s) : pyReplaceAux pat repl fuel s = s := by
  induction fuel generalizing s with
  | zero => rfl
  | succ fuel ih =>
    cases s with
    | nil => rfl
    | cons c rest =>
      have hcond : ¬ (pat ≠ [] ∧ pat.isPrefixOf (c :: rest) = true) := by
        rintro ⟨-, hp⟩
        exact h (List.isPrefixOf_iff_prefix.mp hp).isInfix
      have htail : ¬ pat <:+: rest := fun hi => h (List.infix_cons hi)
      simp only [pyReplaceAux, if_neg hcond, ih rest htail]

theorem head?_dropWhile_false (p : Char → Bool) (l : PStr) (c : Char)
    (h : (l.dropWhile p).head? = some c) : p c = false := by
  induction l with
  | nil => simp [List.dropWhile] at h
  | cons a t ih =>
    by_cases hp : p a = true
    · rw [List.dropWhile_cons_of_pos hp] at h
      exact ih h
    · rw [List.dropWhile_cons_of_neg hp] at h
      obtain rfl : a = c := by simpa using h
      simpa using hp

theorem dropWhile_eq_self_of_head_false (p : Char → Bool) (l : PStr)
    (h : ∀ c, l.head? = some c → p c = false) : l.dropWhile p = l := by
  cases l with
  | nil => rfl
  | cons a t => exact List.dropWhile_cons_of_neg (by simp [h a rfl])

theorem pyStrip_idempotent (s : PStr) : pyStrip (pyStrip s) = pyStrip s := by
  unfold pyStrip
  set w := Char.isWhitespace with hw
  set a := s.dropWhile w with ha
  set b := a.reverse.dropWhile w with hb
  have h1 : b.reverse.dropWhile w = b.reverse := by
    apply dropWhile_eq_self_of_head_false
    intro c hc
    rw [List.head?_reverse] at hc
    have hbne : b ≠ [] := by
      intro h0
      rw [h0] at hc
      simp at hc
    obtain ⟨t, hsuf⟩ : b <:+ a.reverse := hb ▸ List.dropWhile_suffix w
    have hlast : a.reverse.getLast? = some c := by
      rw [← hsuf, @List.getLast?_append_of_ne_nil _ t b hbne, hc]
    rw [List.getLast?_reverse] at hlast
    exact head?_dropWhile_false w s c (ha ▸ hlast)
  have h2 : b.dropWhile w = b := by
    rw [hb]
    exact List.dropWhile_idempotent w a.reverse
  rw [h1, List.reverse_reverse, h2]

theorem fsLookup_fsWrite_self (fs : CheckoutFs) (key content : PStr) :
    fsLookup (fsWrite fs key content) key = some content := by
  induction fs with
  | nil => simp [fsWrite, fsLookup]
  | cons hd rest ih =>
    obtain ⟨k, v⟩ := hd
    by_cases hk : k = key
    · simp [fsWrite, hk, fsLookup]
    · simp [fsWrite, hk, fsLookup, ih]

theorem validateReplacement_nil_original (content : PStr) :
    validateReplacement [] content = [ValReason.sizeReduced] := by
  have hcount : pyCount [] moduleQuoteMarker = 0 := rfl
  have hcontains : ∀ m : PStr, m ≠ [] → pyContains m [] = false := by
    intro m hm
    cases m with
    | nil => cases hm rfl
    | cons c t => simp [pyContains]
  unfold validateReplacement
  rw [hcount]
  rw [hcontains terraformBlockMarker (by decide), hcontains variableQuoteMarker (by decide),
    hcontains outputQuoteMarker (by decide), hcontains resourceQuoteMarker (by decide)]
  simp [sizeRatioBelowHalf]

/-! ## Claim theorems -/

/-- Claim C7, counterexample: module-source normalization is not idempotent.
For the source `$\x7bpath$\x7bpath.module\x7dmodule\x7d`, the single
left-to-right replacement pass synthesizes a fresh `$\x7bpath.module\x7d`
token out of the surrounding text, so normalizing once yields
`$\x7bpath.module\x7d` while normalizing twice yields `.`. -/
theorem normalizeSource_not_idempotent :
    normalizeSource (normalizeSource "$\x7bpath$\x7bpath.module\x7dmodule\x7d".toList) ≠
      normalizeSource "$\x7bpath$\x7bpath.module\x7dmodule\x7d".toList := by decide

/-- Claim C7 (amended): module-source normalization is idempotent on every
source string whose one-pass normalization contains no occurrence of either
path-templating token; the substitution can otherwise synthesize a new token
(see the counterexample), and the second normalization then differs. -/
theorem normalizeSource_idempotent_of_no_token (s : PStr)
    (h1 : ¬ pathModuleToken <:+: normalizeSource s)
    (h2 : ¬ pathRootToken <:+: normalizeSource s) :
    normalizeSource (normalizeSource s) = normalizeSource s := by
  have e1 : pyReplace (normalizeSource s) pathModuleToken ".".toList = normalizeSource s :=
    pyReplaceAux_eq_self _ _ _ _ h1
  have e2 : pyReplace (normalizeSource s) pathRootToken ".".toList = normalizeSource s :=
    pyReplaceAux_eq_self _ _ _ _ h2
  show pyStrip (pyReplace (pyReplace (normalizeSource s) pathModuleToken ".".toList)
      pathRootToken ".".toList) = normalizeSource s
  rw [e1, e2]
  have hns : normalizeSource s =
      pyStrip (pyReplace (pyReplace s pathModuleToken ".".toList) pathRootToken ".".toList) := rfl
  rw [hns]
  exact pyStrip_idempotent _

/-- Witness for the amended C7 at the already-normal source `./modules/s3`. -/
theorem normalizeSource_idempotent_witness :
    (¬ pathModuleToken <:+: normalizeSource "./modules/s3".toList) ∧
    (¬ pathRootToken <:+: normalizeSource "./modules/s3".toList) ∧
    normalizeSource (normalizeSource "./modules/s3".toList) =
      normalizeSource "./modules/s3".toList :=
  ⟨by decide, by decide,
    normalizeSource_idempotent_of_no_token _ (by decide) (by decide)⟩

/-- Claim C10: `create_pr` unconditionally overwrites the intent's `branch`
with `timestamp ++ "-" ++ upper(jira_id)`, defaulting the Jira id to
`unknown` (hence `UNKNOWN` after uppercasing) when absent; the result is
independent of the supplied branch value and never the empty string. -/
theorem resolveBranch_overwrites_intent_branch (b₁ b₂ : Option PStr)
    (j : Option PStr) (ts : PStr) :
    resolveBranch b₁ j ts = resolveBranch b₂ j ts ∧
    resolveBranch b₁ j ts = ts ++ ('-' :: pyUpper (j.getD "unknown".toList)) ∧
    resolveBranch b₁ j ts ≠ [] ∧
    resolveBranch b₁ none ts = ts ++ ('-' :: "UNKNOWN".toList) := by
  refine ⟨rfl, rfl, ?_, rfl⟩
  simp [resolveBranch]

/-- Claim C2, counterexample: an empty `files` object does not lead the run
to the `EmptyDiff` condition — it is rejected before the write stage. -/
theorem emptyFiles_not_emptyDiff :
    processProposedChange [] (some []) ≠ Except.error RunError.emptyDiff := by
  intro h
  exact RunError.noConfusion (Except.error.inj h)

/-- Claim C2 (amended): a `ProposedChange` whose `files` object is empty is
rejected by the payload validation itself (github_pr.py lines 369-376) with
the dedicated empty-files error, for every checkout state; the run never
reaches the write stage or the `EmptyDiff` check. -/
theorem processProposedChange_empty_files (fs0 : CheckoutFs) :
    processProposedChange fs0 (some []) = Except.error RunError.emptyFilesObject := rfl

/-- Claim C9: when the original on-disk content of an existing sensitive
root file is empty, the size ratio is defined as 0, every proposed
replacement (the identical empty one included) fails exactly the
size-reduction check, and the write loop rejects it. -/
theorem applyChanges_rejects_empty_original (rest : List (PStr × PStr))
    (fs : CheckoutFs) (rel_path content : PStr)
    (hlook : fsLookup fs rel_path = some [])
    (hsens : rel_path ∈ sensitiveRootFiles) :
    validateReplacement [] content = [ValReason.sizeReduced] ∧
    applyChangesAux ((rel_path, content) :: rest) fs =
      ⟨fs, [], some (rel_path, [ValReason.sizeReduced])⟩ := by
  refine ⟨validateReplacement_nil_original content, ?_⟩
  simp only [applyChangesAux, hlook, if_pos hsens, validateReplacement_nil_original content]
  rfl

/-- Witness for C9: an empty `main.tf` rejects its identical empty
replacement with the size-reduction reason. -/
theorem applyChanges_rejects_empty_original_witness :
    fsLookup [("main.tf".toList, [])] "main.tf".toList = some [] ∧
    "main.tf".toList ∈ sensitiveRootFiles ∧
    (validateReplacement [] [] = [ValReason.sizeReduced] ∧
      applyChangesAux [("main.tf".toList, [])] [("main.tf".toList, [])] =
        ⟨[("main.tf".toList, [])], [], some ("main.tf".toList, [ValReason.sizeReduced])⟩) :=
  ⟨by decide, by decide,
    applyChanges_rejects_empty_original [] [("main.tf".toList, [])] "main.tf".toList []
      (by decide) (by decide)⟩

/-- Claim C8: a proposed replacement whose repository-relative path is a
sensitive name but does not exist in the checkout bypasses the safety check
entirely: the write happens unconditionally, the loop continues, and the
file afterwards holds exactly the proposed content. -/
theorem applyChanges_writes_nonexistent_sensitive (rel_path content : PStr)
    (rest : List (PStr × PStr)) (fs : CheckoutFs)
    (hnone : fsLookup fs rel_path = none)
    (_hsens : rel_path ∈ sensitiveRootFiles) :
    applyChangesAux ((rel_path, content) :: rest) fs =
      ⟨(applyChangesAux rest (fsWrite fs rel_path content)).fs,
       rel_path :: (applyChangesAux rest (fsWrite fs rel_path content)).changed_files,
       (applyChangesAux rest (fsWrite fs rel_path content)).error⟩ ∧
    fsLookup (fsWrite fs rel_path content) rel_path = some content := by
  constructor
  · simp only [applyChangesAux, hnone]
  · exact fsLookup_fsWrite_self fs rel_path content

/-- Witness for C8: `providers.tf` is sensitive, absent from the checkout,
and gets written as-is. -/
theorem applyChanges_writes_nonexistent_sensitive_witness :
    fsLookup [] "providers.tf".toList = none ∧
    "providers.tf".toList ∈ sensitiveRootFiles ∧
    (applyChangesAux [("providers.tf".toList, "x".toList)] [] =
      ⟨(applyChangesAux [] (fsWrite [] "providers.tf".toList "x".toList)).fs,
       "providers.tf".toList ::
         (applyChangesAux [] (fsWrite [] "providers.tf".toList "x".toList)).changed_files,
       (applyChangesAux [] (fsWrite [] "providers.tf".toList "x".toList)).error⟩ ∧
     fsLookup (fsWrite [] "providers.tf".toList "x".toList) "providers.tf".toList =
       some "x".toList) :=
  ⟨by decide, by decide,
    applyChanges_writes_nonexistent_sensitive "providers.tf".toList "x".toList [] []
      (by decide) (by decide)⟩

theorem applyChangesAux_append (l₁ l₂ : List (PStr × PStr)) (fs : CheckoutFs)
    (h : (applyChangesAux l₁ fs).error = none) :
    applyChangesAux (l₁ ++ l₂) fs =
      ⟨(applyChangesAux l₂ (applyChangesAux l₁ fs).fs).fs,
       (applyChangesAux l₁ fs).changed_files ++
         (applyChangesAux l₂ (applyChangesAux l₁ fs).fs).changed_files,
       (applyChangesAux l₂ (applyChangesAux l₁ fs).fs).error⟩ := by
  induction l₁ generalizing fs with
  | nil => simp [applyChangesAux]
  | cons hd tl ih =>
    obtain ⟨rel_path, content⟩ := hd
    cases hlook : fsLookup fs rel_path with
    | none =>
      simp only [applyChangesAux, hlook, List.cons_append, List.append_eq] at h ⊢
      rw [ih _ h]
    | some original_content =>
      by_cases hsens : rel_path ∈ sensitiveRootFiles
      · by_cases herr : validateReplacement original_content content = []
        · simp only [applyChangesAux, hlook, if_pos hsens, if_pos herr,
            List.cons_append, List.append_eq] at h ⊢
          rw [ih _ h]
        · simp only [applyChangesAux, hlook, if_pos hsens, if_neg herr] at h
          exact absurd h (by simp)
      · simp only [applyChangesAux, hlook, if_neg hsens, List.cons_append, List.append_eq] at h ⊢
        rw [ih _ h]

/-- Claim C1 (amended): when the proposed replacement for a sensitive root
file fails the safety checks, the run aborts at that file: the failing file
itself and every file after it in the batch's iteration order are not
written, but files earlier in the batch have already been written and remain
in the checkout (the abort does not roll them back). -/
theorem applyChanges_abort_on_sensitive_failure (pre : List (PStr × PStr))
    (rel_path content original_content : PStr) (post : List (PStr × PStr))
    (fs0 : CheckoutFs)
    (hok : (applyChangesAux pre fs0).error = none)
    (hlook : fsLookup (applyChangesAux pre fs0).fs rel_path = some original_content)
    (hsens : rel_path ∈ sensitiveRootFiles)
    (hbad : validateReplacement original_content content ≠ []) :
    applyChangesAux (pre ++ (rel_path, content) :: post) fs0 =
      ⟨(applyChangesAux pre fs0).fs, (applyChangesAux pre fs0).changed_files,
       some (rel_path, validateReplacement original_content content)⟩ := by
  rw [applyChangesAux_append pre _ fs0 hok]
  simp only [applyChangesAux, hlook, if_pos hsens, if_neg hbad]
  simp

/-- Claim C1, counterexample: the run does reject the batch (the sensitive
`main.tf` replacement fails the size check), yet the checkout is not left
unchanged — `a.tf`, which precedes the failing file in the batch, has
already been written when the rejection happens. -/
theorem applyChanges_not_fail_closed :
    (applyChangesAux c1Payload c1Checkout).error =
      some ("main.tf".toList, [ValReason.sizeReduced]) ∧
    (applyChangesAux c1Payload c1Checkout).fs ≠ c1Checkout ∧
    fsLookup (applyChangesAux c1Payload c1Checkout).fs "a.tf".toList = some "x".toList ∧
    fsLookup c1Checkout "a.tf".toList = none := by decide

/-- Witness for the amended C1 at the counterexample batch. -/
theorem applyChanges_abort_on_sensitive_failure_witness :
    (applyChangesAux [("a.tf".toList, "x".toList)] c1Checkout).error = none ∧
    fsLookup (applyChangesAux [("a.tf".toList, "x".toList)] c1Checkout).fs "main.tf".toList =
      some "abcd".toList ∧
    "main.tf".toList ∈ sensitiveRootFiles ∧
    validateReplacement "abcd".toList "a".toList ≠ [] ∧
    applyChangesAux ([("a.tf".toList, "x".toList)] ++ ("main.tf".toList, "a".toList) :: [])
        c1Checkout =
      ⟨(applyChangesAux [("a.tf".toList, "x".toList)] c1Checkout).fs,
       (applyChangesAux [("a.tf".toList, "x".toList)] c1Checkout).changed_files,
       some ("main.tf".toList, validateReplacement "abcd".toList "a".toList)⟩ :=
  ⟨by decide, by decide, by decide, by decide,
    applyChanges_abort_on_sensitive_failure [("a.tf".toList, "x".toList)] "main.tf".toList
      "a".toList "abcd".toList [] c1Checkout (by decide) (by decide) (by decide) (by decide)⟩

theorem mem_addDirSiblings (x : RepoFile) (tfs : List RepoFile)
    (candidate_files : List RepoFile) (matched_dirs : List (List PStr)) :
    x ∈ addDirSiblings candidate_files tfs matched_dirs ↔
      x ∈ candidate_files ∨ (x ∈ tfs ∧ x.dir ∈ matched_dirs) := by
  induction tfs generalizing candidate_files with
  | nil => simp [addDirSiblings]
  | cons f rest ih =>
    by_cases hc : f.dir ∈ matched_dirs ∧ f ∉ candidate_files
    · rw [addDirSiblings, if_pos hc, ih]
      constructor
      · rintro (hx | hx)
        · rcases List.mem_append.mp hx with h | h
          · exact Or.inl h
          · simp only [List.mem_singleton] at h
            subst h
            exact Or.inr ⟨List.mem_cons_self _ _, hc.1⟩
        · exact Or.inr ⟨List.mem_cons_of_mem _ hx.1, hx.2⟩
      · rintro (hx | ⟨hx, hd⟩)
        · exact Or.inl (List.mem_append.mpr (Or.inl hx))
        · rcases List.mem_cons.mp hx with rfl | hx
          · exact Or.inl (List.mem_append.mpr (Or.inr (by simp)))
          · exact Or.inr ⟨hx, hd⟩
    · rw [addDirSiblings, if_neg hc, ih]
      constructor
      · rintro (hx | hx)
        · exact Or.inl hx
        · exact Or.inr ⟨List.mem_cons_of_mem _ hx.1, hx.2⟩
      · rintro (hx | ⟨hx, hd⟩)
        · exact Or.inl hx
        · rcases List.mem_cons.mp hx with rfl | hx
          · left
            by_contra hno
            exact hc ⟨hd, hno⟩
          · exact Or.inr ⟨hx, hd⟩

theorem mem_addRootLevelFiles (x : RepoFile) (tfs : List RepoFile)
    (candidate_files : List RepoFile) :
    x ∈ addRootLevelFiles candidate_files tfs ↔
      x ∈ candidate_files ∨ (x ∈ tfs ∧ x.dir = []) := by
  induction tfs generalizing candidate_files with
  | nil => simp [addRootLevelFiles]
  | cons f rest ih =>
    by_cases hc : f.dir = [] ∧ f ∉ candidate_files
    · rw [addRootLevelFiles, if_pos hc, ih]
      constructor
      · rintro (hx | hx)
        · rcases List.mem_append.mp hx with h | h
          · exact Or.inl h
          · simp only [List.mem_singleton] at h
            subst h
            exact Or.inr ⟨List.mem_cons_self _ _, hc.1⟩
        · exact Or.inr ⟨List.mem_cons_of_mem _ hx.1, hx.2⟩
      · rintro (hx | ⟨hx, hd⟩)
        · exact Or.inl (List.mem_append.mpr (Or.inl hx))
        · rcases List.mem_cons.mp hx with rfl | hx
          · exact Or.inl (List.mem_append.mpr (Or.inr (by simp)))
          · exact Or.inr ⟨hx, hd⟩
    · rw [addRootLevelFiles, if_neg hc, ih]
      constructor
      · rintro (hx | hx)
        · exact Or.inl hx
        · exact Or.inr ⟨List.mem_cons_of_mem _ hx.1, hx.2⟩
      · rintro (hx | ⟨hx, hd⟩)
        · exact Or.inl hx
        · rcases List.mem_cons.mp hx with rfl | hx
          · left
            by_contra hno
            exact hc ⟨hd, hno⟩
          · exact Or.inr ⟨hx, hd⟩

theorem addDirSiblings_ne_nil (candidate_files tfs : List RepoFile)
    (matched_dirs : List (List PStr)) (h : candidate_files ≠ []) :
    addDirSiblings candidate_files tfs matched_dirs ≠ [] := by
  obtain ⟨x, hx⟩ := List.exists_mem_of_ne_nil candidate_files h
  intro h0
  have hmem := (mem_addDirSiblings x tfs candidate_files matched_dirs).mpr (Or.inl hx)
  rw [h0] at hmem
  exact absurd hmem (List.not_mem_nil x)

theorem addRootLevelFiles_ne_nil (candidate_files tfs : List RepoFile)
    (h : candidate_files ≠ []) :
    addRootLevelFiles candidate_files tfs ≠ [] := by
  obtain ⟨x, hx⟩ := List.exists_mem_of_ne_nil candidate_files h
  intro h0
  have hmem := (mem_addRootLevelFiles x tfs candidate_files).mpr (Or.inl hx)
  rw [h0] at hmem
  exact absurd hmem (List.not_mem_nil x)

/-- Claim C3, counterexample: a repository where `modules/s3/` exists on
disk yet `module_files` is the file set of the discovered module source
directory `mymod/` — it contains a file outside `modules/s3/` and excludes
the file inside it, so existence of `modules/<resourceType>/` does not
restrict the set. -/
theorem moduleFiles_not_restricted_to_resource_dir :
    isDir c3Repo [modulesDirName, "s3".toList] = true ∧
    moduleFilesOf c3Repo [["mymod".toList]] "s3".toList = [c3FileA] ∧
    c3FileA ∉ filesUnder c3Repo [modulesDirName, "s3".toList] ∧
    c3FileB ∉ moduleFilesOf c3Repo [["mymod".toList]] "s3".toList := by decide

/-- Claim C3 (amended): files under the discovered module-source
directories take precedence — whenever that set is non-empty it is
`module_files`, regardless of any `modules/<resourceType>/` directory; the
restriction to `modules/<resourceType>/` (when it exists) applies only when
the discovered-source set is empty and a root-level `modules/` directory
exists, and otherwise all of `modules/` is scanned. -/
theorem moduleFiles_precedence (r : Repo) (module_source_dirs : List (List PStr))
    (resource_type : PStr) :
    (moduleSourceFiles r module_source_dirs ≠ [] →
      moduleFilesOf r module_source_dirs resource_type =
        moduleSourceFiles r module_source_dirs) ∧
    (moduleSourceFiles r module_source_dirs = [] →
      isDir r [modulesDirName] = true →
      isDir r [modulesDirName, resource_type] = true →
      moduleFilesOf r module_source_dirs resource_type =
        (filesUnder r [modulesDirName, resource_type]).filter
          (fun f => isDefFileName f.name)) ∧
    (moduleSourceFiles r module_source_dirs = [] →
      isDir r [modulesDirName] = true →
      isDir r [modulesDirName, resource_type] = false →
      moduleFilesOf r module_source_dirs resource_type =
        (filesUnder r [modulesDirName]).filter (fun f => isDefFileName f.name)) := by
  refine ⟨fun h1 => ?_, fun h1 h2 h3 => ?_, fun h1 h2 h3 => ?_⟩
  · simp only [moduleFilesOf]
    rw [if_neg (by simp [h1])]
  · simp only [moduleFilesOf]
    rw [if_pos (by simp [h1, h2]), if_pos h3, h1]
    simp
  · simp only [moduleFilesOf]
    rw [if_pos (by simp [h1, h2]), if_neg (by simp [h3]), h1]
    simp

/-- Witness for the amended C3: on the C3 repository the discovered-source
set is non-empty and wins; with no discovered sources, the
`modules/s3/` restriction applies. -/
theorem moduleFiles_precedence_witness :
    (moduleSourceFiles c3Repo [["mymod".toList]] ≠ [] ∧
      moduleFilesOf c3Repo [["mymod".toList]] "s3".toList =
        moduleSourceFiles c3Repo [["mymod".toList]]) ∧
    (moduleSourceFiles c3Repo [] = [] ∧
      isDir c3Repo [modulesDirName] = true ∧
      isDir c3Repo [modulesDirName, "s3".toList] = true ∧
      moduleFilesOf c3Repo [] "s3".toList =
        (filesUnder c3Repo [modulesDirName, "s3".toList]).filter
          (fun f => isDefFileName f.name)) :=
  ⟨⟨by decide, (moduleFiles_precedence c3Repo [["mymod".toList]] "s3".toList).1 (by decide)⟩,
   ⟨by decide, by decide, by decide,
    (moduleFiles_precedence c3Repo [] "s3".toList).2.1 (by decide) (by decide) (by decide)⟩⟩

/-- Claim C4, counterexample: a repository whose inventory is non-empty
(one manifest file) still fails with `NoCandidateFiles`, because every tier
— including tier 4, which only covers definition files — is empty. -/
theorem nonempty_inventory_no_candidates :
    terraformFiles c4Repo ++ terragruntFiles c4Repo ≠ [] ∧
    runSelection c4Repo [] "s3".toList [] =
      Except.error SelectionError.noCandidateFiles :=
  ⟨by decide, rfl⟩

/-- Claim C4 (amended): the selected candidate set is non-empty whenever
the definition-file inventory (`terraform_files`) is non-empty, and the run
then cannot fail with `NoCandidateFiles`; with a non-empty inventory made
only of manifest files the failure is still possible (see the
counterexample). -/
theorem candidates_nonempty_of_def_files (r : Repo) (affected_resources : List PStr)
    (resource_type : PStr) (module_source_dirs : List (List PStr))
    (h : terraformFiles r ≠ []) :
    selectCandidateFiles r affected_resources resource_type module_source_dirs ≠ [] ∧
    runSelection r affected_resources resource_type module_source_dirs ≠
      Except.error SelectionError.noCandidateFiles := by
  have hsel : selectCandidateFiles r affected_resources resource_type module_source_dirs ≠ [] := by
    simp only [selectCandidateFiles]
    split_ifs with h1 h2 h3
    · exact addDirSiblings_ne_nil _ _ _ h1
    · exact h2.2
    · exact addRootLevelFiles_ne_nil _ _ h3
    · exact h
  refine ⟨hsel, ?_⟩
  simp only [runSelection]
  by_cases g1 : terraformFiles r = [] ∧ terragruntFiles r = []
  · exact absurd g1.1 h
  · rw [if_neg g1]
    by_cases g2 : affected_resources ≠ [] ∧ matchedFiles r affected_resources = [] ∧
        resourceRelatedFiles r resource_type = [] ∧
        moduleFilesOf r module_source_dirs resource_type = []
    · rw [if_pos g2]
      intro he
      exact SelectionError.noConfusion (Except.error.inj he)
    · rw [if_neg g2, if_neg hsel]
      intro he
      exact Except.noConfusion he

/-- Witness for the amended C4 at the C5 repository, whose definition-file
inventory is non-empty. -/
theorem candidates_nonempty_of_def_files_witness :
    terraformFiles c5Repo ≠ [] ∧
    (selectCandidateFiles c5Repo [] "s3".toList [] ≠ [] ∧
      runSelection c5Repo [] "s3".toList [] ≠
        Except.error SelectionError.noCandidateFiles) :=
  ⟨by decide, candidates_nonempty_of_def_files c5Repo [] "s3".toList [] (by decide)⟩

/-- Claim C5: when at least one definition file contains an affected
resource identifier, tier 1 is used and a file is a candidate exactly when
it is a definition file whose directory is the directory of some matched
file (which covers the matched files themselves); files from every other
directory are excluded. -/
theorem tier1_candidates_characterization (r : Repo) (affected_resources : List PStr)
    (resource_type : PStr) (module_source_dirs : List (List PStr)) (f : RepoFile)
    (h : matchedFiles r affected_resources ≠ []) :
    f ∈ selectCandidateFiles r affected_resources resource_type module_source_dirs ↔
      (f ∈ terraformFiles r ∧
        ∃ g ∈ matchedFiles r affected_resources, f.dir = g.dir) := by
  simp only [selectCandidateFiles]
  rw [if_pos h, mem_addDirSiblings]
  constructor
  · rintro (hx | ⟨htf, hd⟩)
    · exact ⟨List.mem_of_mem_filter hx, f, hx, rfl⟩
    · obtain ⟨g, hg, hgd⟩ := List.mem_map.mp hd
      exact ⟨htf, g, hg, hgd.symm⟩
  · rintro ⟨htf, g, hg, hgd⟩
    exact Or.inr ⟨htf, List.mem_map.mpr ⟨g, hg, hgd.symm⟩⟩

/-- Witness for C5: in the C5 repository the sibling `app/vars.tf` of the
matched `app/main.tf` is a candidate by the characterization. -/
theorem tier1_candidates_characterization_witness :
    matchedFiles c5Repo c5Affected ≠ [] ∧
    (c5FileSib ∈ selectCandidateFiles c5Repo c5Affected "s3".toList [] ↔
      (c5FileSib ∈ terraformFiles c5Repo ∧
        ∃ g ∈ matchedFiles c5Repo c5Affected, c5FileSib.dir = g.dir)) :=
  ⟨by decide,
    tier1_candidates_characterization c5Repo c5Affected "s3".toList [] c5FileSib (by decide)⟩

theorem assembleAux_exhausted (l : List RepoFile) (total_chars : Nat)
    (h : max_total_chars - total_chars = 0) : assembleAux l total_chars = [] := by
  cases l with
  | nil => rfl
  | cons f rest => simp [assembleAux, h]

theorem assembleAux_append_of_fits (pre rest : List RepoFile) (total_chars : Nat)
    (h : total_chars + sumContentLens pre < max_total_chars) :
    assembleAux (pre ++ rest) total_chars =
      pre.map (fun g => (relPathOf g, g.content)) ++
        assembleAux rest (total_chars + sumContentLens pre) := by
  induction pre generalizing total_chars with
  | nil => simp [sumContentLens]
  | cons f pre' ih =>
    have hsum : sumContentLens (f :: pre') = f.content.length + sumContentLens pre' := by
      simp [sumContentLens]
    rw [hsum] at h
    have hrem : ¬ max_total_chars - total_chars = 0 := by omega
    have hlen : ¬ f.content.length > max_total_chars - total_chars := by omega
    simp only [List.cons_append, List.append_eq, assembleAux, if_neg hrem, if_neg hlen,
      List.map_cons]
    rw [ih (total_chars + f.content.length) (by omega), hsum, Nat.add_assoc]

/-- Claim C6: when the remaining character budget at some candidate file is
positive but smaller than that file's length (all earlier candidates having
fit whole), the recorded content for that file is its truncation to exactly
the remaining budget, and no later candidate contributes any entry. -/
theorem assemble_truncates_last (pre : List RepoFile) (f : RepoFile)
    (post : List RepoFile)
    (hcount : pre.length < max_files)
    (hpre : sumContentLens pre < max_total_chars)
    (hover : max_total_chars - sumContentLens pre < f.content.length) :
    assembleFileContents (pre ++ f :: post) =
      pre.map (fun g => (relPathOf g, g.content)) ++
        [(relPathOf f, f.content.take (max_total_chars - sumContentLens pre))] ∧
    (f.content.take (max_total_chars - sumContentLens pre)).length =
      max_total_chars - sumContentLens pre := by
  have hlen_take : (f.content.take (max_total_chars - sumContentLens pre)).length =
      max_total_chars - sumContentLens pre := by
    rw [List.length_take]
    omega
  refine ⟨?_, hlen_take⟩
  unfold assembleFileContents
  rw [List.take_append_eq_append_take, List.take_of_length_le (le_of_lt hcount)]
  have hsplit : max_files - pre.length = (max_files - pre.length - 1) + 1 := by omega
  rw [hsplit, List.take_succ_cons]
  rw [assembleAux_append_of_fits pre _ 0 (by simpa using hpre)]
  congr 1
  have hrem : ¬ max_total_chars - (0 + sumContentLens pre) = 0 := by omega
  have hgt : f.content.length > max_total_chars - (0 + sumContentLens pre) := by omega
  simp only [assembleAux, if_neg hrem, if_pos hgt]
  rw [assembleAux_exhausted]
  · simp only [Nat.zero_add]
  · rw [List.length_take]
    omega

/-- Witness for C6: a single candidate one character over the whole budget
is truncated to exactly 200000 characters and ends the payload. -/
theorem assemble_truncates_last_witness :
    ([] : List RepoFile).length < max_files ∧
    sumContentLens [] < max_total_chars ∧
    max_total_chars - sumContentLens [] < c6BigFile.content.length ∧
    (assembleFileContents ([] ++ c6BigFile :: []) =
      ([] : List RepoFile).map (fun g => (relPathOf g, g.content)) ++
        [(relPathOf c6BigFile, c6BigFile.content.take (max_total_chars - sumContentLens []))] ∧
     (c6BigFile.content.take (max_total_chars - sumContentLens [])).length =
       max_total_chars - sumContentLens []) :=
  ⟨by decide, by decide,
    by
      rw [show c6BigFile.content.length = 200001 from List.length_replicate 200001 _]
      decide,
    assemble_truncates_last [] c6BigFile [] (by decide) (by decide)
      (by
        rw [show c6BigFile.content.length = 200001 from List.length_replicate 200001 _]
        decide)⟩

end CloudRemediator
